import Mathlib

/-!
Verification of the accessmate routing core: a shallow embedding of
`src/backend/src/python/create_graph.py` (attribute enrichment, graph
serialization) and `src/backend/src/python/find_route.py` (obstacle
weighting and route planning), with machine real numbers modelled as
rationals.  External library collaborators (the spatial nearest-edge /
nearest-node lookups and the shortest-path search of osmnx/networkx)
are modelled as oracle parameters, constrained where needed by the
behaviour the specification assigns to them.
-/

namespace AccessMate

/-- Per-edge attribute record.  In the Python source the attributes live in
the networkx edge-data dictionary; after enrichment all of them are present,
and the weight calculator reads them with the same defaults used here
(`data.get('length', 0)`, `data.get('width', 2.0)`, `data.get('grade', 0)`,
`data.get('obstacle_score', 0)`). -/
structure EdgeData where
  length : ℚ := 0
  grade : ℚ := 0
  stairs : String := "no"
  width : ℚ := 2
  surface : String := "unknown"
  lit : String := "unknown"
  obstacle_score : ℚ := 0
  original_obstacle_score : ℚ := 0
  weight : ℚ := 0
deriving DecidableEq

/-- Node attributes: `x` is longitude, `y` is latitude, as in osmnx. -/
structure NodeData where
  x : ℚ := 0
  y : ℚ := 0
deriving DecidableEq

/-- A directed multigraph edge `(u, v, key)` with its attribute record. -/
structure Edge where
  u : Nat
  v : Nat
  k : Nat
  data : EdgeData
deriving DecidableEq

/-- The attributed directed multigraph: node list and keyed edge list. -/
structure Graph where
  nodes : List (Nat × NodeData)
  edges : List Edge
deriving DecidableEq

/-- Obstacle location from the request payload (`location.get('latitude', 0)`,
`location.get('longitude', 0)`). -/
structure Location where
  latitude : ℚ := 0
  longitude : ℚ := 0
deriving DecidableEq

/-- A reported obstacle from the routing request. -/
structure Obstacle where
  obstacleType : String := "OTHER"
  obstacleScore : ℚ := 1
  location : Location := {}
deriving DecidableEq

/-- User preferences; `none` models an absent dictionary key, read in the
source with `user_preferences.get(key, default)`. -/
structure UserPreferences where
  maxSlope : Option ℚ := none
  avoidStairs : Option Bool := none
  minimumWidth : Option ℚ := none
deriving DecidableEq

/-- The `obstacle_weights` dictionary of `find_route.py`, read with
`obstacle_weights.get(obstacle_type, 600)`. -/
def obstacleWeightTable (t : String) : ℚ :=
  if t = "STAIRS" then 1000
  else if t = "NARROW_PATH" then 800
  else if t = "STEEP_INCLINE" then 900
  else if t = "UNEVEN_SURFACE" then 700
  else if t = "OBSTACLE_IN_PATH" then 1000
  else if t = "POOR_LIGHTING" then 500
  else if t = "CONSTRUCTION" then 900
  else if t = "MISSING_RAMP" then 800
  else if t = "MISSING_CROSSWALK" then 700
  else if t = "OTHER" then 600
  else 600

/-- The product `obstacle_weights.get(obstacle_type, 600) * obstacle_score`
for one obstacle of the request list. -/
def obstacleBase (ob : Obstacle) : ℚ :=
  obstacleWeightTable ob.obstacleType * ob.obstacleScore

/-- Phase one of `calculate_obstacle_weights`, acting on a single edge-data
record: set `weight` from the length and the preference penalties, and record
`original_obstacle_score`, exactly in the order of the source. -/
def applyPreferences (max_slope : ℚ) (avoid_stairs : Bool) (minimum_width : ℚ)
    (d : EdgeData) : EdgeData :=
  let length := d.length
  let w1 := length
  let w2 := if avoid_stairs ∧ d.stairs = "yes" then w1 + length * 100 else w1
  let edge_width := d.width
  let w3 := if edge_width < minimum_width then
      w2 + length * ((minimum_width - edge_width) / minimum_width) * 10
    else w2
  let edge_grade := |d.grade|
  let w4 := if edge_grade > max_slope then
      w3 + length * ((edge_grade - max_slope) / max_slope) * 20
    else w3
  { d with weight := w4, original_obstacle_score := d.obstacle_score }

/-- The key `(u, v, k)` of an edge, used by `graph[u][v][k]` updates. -/
def edgeKey (e : Edge) : Nat × Nat × Nat := (e.u, e.v, e.k)

/-- Type of the external spatial lookup `ox.distance.nearest_edges(graph,
lng, lat, return_dist=True)`, modelled from the spec: it yields the edges
near the query point, each paired with its distance in meters.  The source
iterates over the result as a list of `(edge, dist)` pairs. -/
abbrev NearestFn := Graph → ℚ → ℚ → List ((Nat × Nat × Nat) × ℚ)

/-- The update `graph[u][v][k]['weight'] += edge_penalty` together with the
matching `obstacle_score` update of the same penalty. -/
def addPenalty (edge_penalty : ℚ) (e : Edge) : Edge :=
  { e with data := { e.data with
      weight := e.data.weight + edge_penalty,
      obstacle_score := e.data.obstacle_score + edge_penalty } }

/-- One iteration of the inner loop of the obstacle pass: the distance guard
`dist <= MAX_OBSTACLE_INFLUENCE`, the decayed penalty
`obstacle_weight * (1 - dist / 100)`, and the two `+=` updates on the edge
addressed by the returned key. -/
def applyPenaltyStep (obstacle_weight : ℚ) (g : Graph)
    (p : (Nat × Nat × Nat) × ℚ) : Graph :=
  if p.2 ≤ 100 then
    { g with edges := g.edges.map (fun e =>
        if edgeKey e = p.1 then addPenalty (obstacle_weight * (1 - p.2 / 100)) e
        else e) }
  else g

/-- Processing of one obstacle of the request list: skip locations equal to
`(0, 0)`, query the nearest-edge oracle once, then apply the distance-decayed
penalty to every returned edge within the influence radius. -/
def applyObstacle (nearestEdges : NearestFn) (g : Graph) (ob : Obstacle) :
    Graph :=
  let obstacle_weight := obstacleBase ob
  let lat := ob.location.latitude
  let lng := ob.location.longitude
  if lat = 0 ∧ lng = 0 then g
  else (nearestEdges g lng lat).foldl (applyPenaltyStep obstacle_weight) g

/-- Function `calculate_obstacle_weights` of `find_route.py`: read the preferences
with their defaults, run the per-edge preference pass, then fold the
obstacle list over the graph. -/
def calculate_obstacle_weights (nearestEdges : NearestFn) (g : Graph)
    (obstacles : List Obstacle) (prefs : UserPreferences) : Graph :=
  let max_slope := prefs.maxSlope.getD (8 / 100)
  let avoid_stairs := prefs.avoidStairs.getD true
  let minimum_width := prefs.minimumWidth.getD (12 / 10)
  let g1 : Graph := { g with edges := g.edges.map (fun e =>
    { e with data := applyPreferences max_slope avoid_stairs minimum_width e.data }) }
  obstacles.foldl (applyObstacle nearestEdges) g1

/-! ### Attribute enrichment (`create_graph.py`) -/

/-- Raw OSM tags of one edge, as read by the enrichment loop; `none` models
an absent dictionary key. -/
structure Tags where
  highway : Option String := none
  stairs : Option String := none
  width : Option String := none
  surface : Option String := none
  lit : Option String := none
deriving DecidableEq

/-- Whether `p` is an initial segment of the second list (Python substring
match at the head position). -/
def startsWith : List Char → List Char → Bool
  | [], _ => true
  | _ :: _, [] => false
  | p :: ps, c :: cs => p == c && startsWith ps cs

/-- Worker for `replaceList`; the fuel, initially the list length, makes the
recursion structural (it bounds the number of characters consumed, so it
never runs out on the initial call). -/
def replaceListAux (pat rep : List Char) : Nat → List Char → List Char
  | _, [] => []
  | 0, l => l
  | fuel + 1, c :: rest =>
    if startsWith pat (c :: rest) ∧ pat ≠ [] then
      rep ++ replaceListAux pat rep fuel (rest.drop (pat.length - 1))
    else c :: replaceListAux pat rep fuel rest

/-- Python's `str.replace(pat, rep)`-style replacement of every
non-overlapping occurrence of `pat`, scanning left to right. -/
def replaceList (pat rep l : List Char) : List Char :=
  replaceListAux pat rep l.length l

/-- ASCII whitespace, as stripped by Python's `str.strip()`. -/
def isPySpace (c : Char) : Bool :=
  c == ' ' || c == '\t' || c == '\n' || c == '\r'

/-- Python's `str.strip()`: whitespace removed from both ends. -/
def pyStrip (l : List Char) : List Char :=
  ((l.dropWhile isPySpace).reverse.dropWhile isPySpace).reverse

/-- Python's `pat in s` substring test. -/
def containsSub (pat : List Char) : List Char → Bool
  | [] => startsWith pat []
  | c :: cs => startsWith pat (c :: cs) || containsSub pat cs

/-- Digits of a decimal literal, most significant first. -/
def digitsToNat (l : List Char) : Nat :=
  l.foldl (fun acc c => acc * 10 + (c.toNat - 48)) 0

/-- Python's `float()` on a decimal literal (optional sign, digits, optional
fractional part; anything else raises `ValueError`, modelled as `none`). -/
def parseFloat (chars : List Char) : Option ℚ :=
  let signed : ℚ × List Char :=
    match chars with
    | '-' :: r => (-1, r)
    | '+' :: r => (1, r)
    | r => (1, r)
  let intPart := signed.2.takeWhile Char.isDigit
  let rest := signed.2.dropWhile Char.isDigit
  match rest with
  | [] => if intPart.isEmpty then none else some (signed.1 * digitsToNat intPart)
  | '.' :: frac =>
      if frac.all Char.isDigit && !(intPart.isEmpty && frac.isEmpty) then
        some (signed.1 * ((digitsToNat intPart : ℚ) +
          (digitsToNat frac : ℚ) / (10 ^ frac.length)))
      else none
  | _ => none

/-- The branch on the stripped width string: either divide a `cm` value by
100 or parse directly; any parse failure yields the default width 2.0. -/
def parse_width_core (s : List Char) : ℚ :=
  if containsSub ("cm".data) s then
    match parseFloat (replaceList ("cm".data) [] s) with
    | some x => x / 100
    | none => 2
  else
    match parseFloat s with
    | some x => x
    | none => 2

/-- The width-tag parsing block of `create_graph.py`: strip every `m`
occurrence (and, afterwards, any remaining `meters`), trim, then the
`cm`-or-direct parse of `parse_width_core`. -/
def parse_width (width_tag : String) : ℚ :=
  parse_width_core
    (pyStrip (replaceList ("meters".data) [] (replaceList ("m".data) [] width_tag.data)))

/-- The slope-based obstacle-score increment of the enrichment loop:
`min(100, int(grade * 100))` added when `abs(grade) > 0.08` (Python's `int`
truncates, which on the non-negative `abs` value is the floor). -/
def grade_score_add (grade : ℚ) : ℚ :=
  let g := |grade|
  if g > 8 / 100 then ((min 100 ⌊g * 100⌋ : ℤ) : ℚ) else 0

/-- The body of the enrichment loop of `create_graph.py` for one edge:
defaults, then the tag-derived attributes and scores, then the slope score. -/
def enrich_edge (length : ℚ) (grade : ℚ) (tags : Option Tags) : EdgeData :=
  let d : EdgeData :=
    { length := length, grade := grade, stairs := "no", width := 2,
      surface := "unknown", lit := "unknown", obstacle_score := 0 }
  let d :=
    match tags with
    | none => d
    | some t =>
      let d :=
        if t.highway = some "steps" ∨ t.stairs = some "yes" then
          { d with stairs := "yes", obstacle_score := d.obstacle_score + 100 }
        else d
      let d :=
        match t.width with
        | none => d
        | some ws => { d with width := parse_width ws }
      let d :=
        match t.surface with
        | none => d
        | some sv =>
          let d := { d with surface := sv }
          if sv = "cobblestone" ∨ sv = "gravel" ∨ sv = "dirt" ∨
             sv = "sand" ∨ sv = "mud" then
            { d with obstacle_score := d.obstacle_score + 50 }
          else d
      let d :=
        match t.lit with
        | none => d
        | some lv =>
          let d := { d with lit := lv }
          if lv = "no" then { d with obstacle_score := d.obstacle_score + 20 }
          else d
      d
  { d with obstacle_score := d.obstacle_score + grade_score_add grade }

/-! ### Graph serialization (`serialize_graph` / `deserialize_graph`)

The JSON marshalling itself (`json.dumps` / `json.loads`) is declared out of
scope by the specification; what is modelled is the node-link conversion the
two functions wrap. -/

/-- A node entry of the node-link format: id plus all node attributes. -/
structure NodeLinkNode where
  id : Nat
  attrs : NodeData
deriving DecidableEq

/-- A link entry of the node-link format: source, target, key, plus all edge
attributes. -/
structure NodeLinkLink where
  source : Nat
  target : Nat
  key : Nat
  attrs : EdgeData
deriving DecidableEq

/-- The node-link representation produced by `nx.node_link_data`. -/
structure NodeLinkData where
  directed : Bool
  multigraph : Bool
  nodes : List NodeLinkNode
  links : List NodeLinkLink
deriving DecidableEq

/-- Modelled from the spec: `nx.node_link_data` (library code outside
`src/`) converts the graph to a list of nodes (each with id + attributes)
and a list of links (each with source, target, key, attributes). -/
def node_link_data (g : Graph) : NodeLinkData :=
  { directed := true, multigraph := true,
    nodes := g.nodes.map (fun p => { id := p.1, attrs := p.2 }),
    links := g.edges.map (fun e =>
      { source := e.u, target := e.v, key := e.k, attrs := e.data }) }

/-- Modelled from the spec: `nx.node_link_graph` (library code outside
`src/`) rebuilds the graph from its node-link representation. -/
def node_link_graph (d : NodeLinkData) : Graph :=
  { nodes := d.nodes.map (fun n => (n.id, n.attrs)),
    edges := d.links.map (fun l =>
      { u := l.source, v := l.target, k := l.key, data := l.attrs }) }

/-- Function `serialize_graph` of `create_graph.py` (minus the out-of-scope
`json.dumps`). -/
def serialize_graph (g : Graph) : NodeLinkData := node_link_data g

/-- Function `deserialize_graph` of `find_route.py` (minus the out-of-scope
`json.loads`). -/
def deserialize_graph (d : NodeLinkData) : Graph := node_link_graph d

/-! ### Route planner (`find_accessible_route`) -/

/-- One instruction step of the route result. -/
structure Step where
  instructions : String
  distance : String
  duration : String
  startLocation : Location
  endLocation : Location
deriving DecidableEq

/-- The route result dictionary. -/
structure RouteResult where
  points : List Location
  distance : ℚ
  duration : String
  hasObstacles : Bool
  steps : List Step
deriving DecidableEq

/-- Lookup `graph.get_edge_data(u, v, k)`: the attribute record of that keyed edge,
or `none` when absent. -/
def get_edge_data (g : Graph) (u v k : Nat) : Option EdgeData :=
  (g.edges.find? (fun e => e.u == u && e.v == v && e.k == k)).map Edge.data

/-- The stats loop of `find_accessible_route`: walk the consecutive node
pairs of the path, read the key-0 edge data (`graph.get_edge_data(u, v, 0)`;
a missing record raises and aborts the route), accumulate the length and the
obstacle flag. -/
def routeStats (g : Graph) (path : List Nat) : Option (ℚ × Bool) :=
  (path.zip path.tail).foldlM
    (fun acc uv => do
      let d ← get_edge_data g uv.1 uv.2 0
      pure (acc.1 + d.length,
        if d.obstacle_score > 0 ∨ d.original_obstacle_score > 0 then true
        else acc.2))
    ((0 : ℚ), false)

/-- Minutes `math.ceil((route_length / DEFAULT_WALKING_SPEED) / 60)` with walking
speed 1.4 m/s. -/
def route_minutes (route_length : ℚ) : ℤ :=
  ⌈(route_length / (14 / 10)) / 60⌉

/-- The duration-string formatting of `find_accessible_route`
(`math.floor(duration_minutes / 60)` and `duration_minutes % 60` follow
Python's floor division and sign-of-divisor modulus). -/
def duration_str_of_minutes (m : ℤ) : String :=
  if m < 60 then toString m ++ " mins"
  else toString (Int.fdiv m 60) ++ " hours " ++ toString (Int.emod m 60) ++ " mins"

/-- Python's `round` to an integer (banker's rounding: half to even). -/
def round_half_even (q : ℚ) : ℤ :=
  let f := ⌊q⌋
  let r := q - f
  if r < 1 / 2 then f
  else if r > 1 / 2 then f + 1
  else if f % 2 = 0 then f else f + 1

/-- Rounding `round(x, 2)` on the kilometre distance. -/
def round2 (q : ℚ) : ℚ := (round_half_even (q * 100) : ℚ) / 100

/-- Reads `graph.nodes[node]['y']` / `graph.nodes[node]['x']` as one lookup: the
coordinates of a node id, `none` (a `KeyError` in the source, caught by its
`except`) when the node is absent. -/
def nodeLocation (g : Graph) (n : Nat) : Option Location :=
  (g.nodes.find? (fun p => p.1 == n)).map (fun p =>
    { latitude := p.2.y, longitude := p.2.x })

/-- Function `find_accessible_route` of `find_route.py`.  The external collaborators
are parameters: `nearestNode` models `ox.distance.nearest_nodes` (called with
x = longitude, y = latitude), and `shortestPath` models `nx.shortest_path`
with the `weight` attribute, whose no-path / missing-node exceptions — caught
by the source's `except` — are modelled as `none`.  Every failure path
returns `none`, as the source returns `None`. -/
def find_accessible_route (nearestNode : Graph → ℚ → ℚ → Nat)
    (shortestPath : Graph → Nat → Nat → Option (List Nat))
    (g : Graph) (origin destination : ℚ × ℚ) : Option RouteResult := do
  let origin_node := nearestNode g origin.2 origin.1
  let dest_node := nearestNode g destination.2 destination.1
  let path ← shortestPath g origin_node dest_node
  let route_points ← path.mapM (nodeLocation g)
  let stats ← routeStats g path
  let route_length := stats.1
  let route_obstacles := stats.2
  let duration_minutes := route_minutes route_length
  let duration_str := duration_str_of_minutes duration_minutes
  let distance_km := round2 (route_length / 1000)
  let start ← route_points.head?
  let stop ← route_points.getLast?
  pure
    { points := route_points, distance := distance_km,
      duration := duration_str, hasObstacles := route_obstacles,
      steps := [{ instructions := "Follow the accessible path.",
                  distance := toString (round_half_even route_length) ++ " m",
                  duration := duration_str,
                  startLocation := start, endLocation := stop }] }

/-! ### Shortest-path semantics of the external search

`nx.shortest_path` on a weighted multigraph uses, for each consecutive node
pair, the minimum `weight` among the parallel edges, and returns a path of
minimal accumulated weight.  These definitions state that contract so that
oracle instantiations can be checked against it. -/

/-- Minimum `weight` among the parallel edges from `u` to `v`, or `none`
when no such edge exists. -/
def pairWeight (g : Graph) (u v : Nat) : Option ℚ :=
  match (g.edges.filter (fun e => e.u == u && e.v == v)).map
      (fun e => e.data.weight) with
  | [] => none
  | w :: ws => some (ws.foldl min w)

/-- Accumulated cost of a node sequence, `none` if some consecutive pair has
no edge (or the sequence is empty). -/
def walkCost (g : Graph) : List Nat → Option ℚ
  | [] => none
  | [_] => some 0
  | u :: v :: rest => do
      let w ← pairWeight g u v
      let r ← walkCost g (v :: rest)
      pure (w + r)

/-- Whether `p` is a path of the graph from `o` to `d`. -/
def IsPathFromTo (g : Graph) (o d : Nat) (p : List Nat) : Prop :=
  p.head? = some o ∧ p.getLast? = some d ∧ (walkCost g p).isSome = true

/-- Whether `p` is a minimum-weight path from `o` to `d`, the contract of
`nx.shortest_path(graph, o, d, weight='weight')`. -/
def IsShortestPath (g : Graph) (o d : Nat) (p : List Nat) : Prop :=
  IsPathFromTo g o d p ∧
    ∀ q c c', IsPathFromTo g o d q → walkCost g p = some c →
      walkCost g q = some c' → c ≤ c'

/-- Some edge actually traversed by the path — an edge realizing the minimum
parallel weight on a consecutive node pair — has nonzero `obstacle_score` or
nonzero `original_obstacle_score`. -/
def TraversedObstacle (g : Graph) (p : List Nat) : Prop :=
  ∃ e ∈ g.edges, ∃ uv ∈ p.zip p.tail,
    e.u = uv.1 ∧ e.v = uv.2 ∧ pairWeight g uv.1 uv.2 = some e.data.weight ∧
    (e.data.obstacle_score ≠ 0 ∨ e.data.original_obstacle_score ≠ 0)

/-! ### Derived quantities used to state the claims -/

/-- The penalty one `(edge-key, distance)` pair returned by the spatial
lookup contributes to the edge with key `ek`: `base * (1 - dist / 100)`
within the influence radius, `0` otherwise. -/
def penaltyOfPair (base : ℚ) (ek : Nat × Nat × Nat)
    (p : (Nat × Nat × Nat) × ℚ) : ℚ :=
  if p.1 = ek ∧ p.2 ≤ 100 then base * (1 - p.2 / 100) else 0

/-- Total penalty one obstacle's lookup result contributes to the edge with
key `ek`. -/
def obstacleContribution (base : ℚ) (pairs : List ((Nat × Nat × Nat) × ℚ))
    (ek : Nat × Nat × Nat) : ℚ :=
  (pairs.map (penaltyOfPair base ek)).sum

/-- Total penalty the whole obstacle list contributes to the edge with key
`ek`; obstacles located exactly at `(0, 0)` contribute nothing. -/
def totalContribution (nf : NearestFn) (g : Graph) (obs : List Obstacle)
    (ek : Nat × Nat × Nat) : ℚ :=
  (obs.map (fun ob =>
    if ob.location.latitude = 0 ∧ ob.location.longitude = 0 then 0
    else obstacleContribution (obstacleBase ob)
      (nf g ob.location.longitude ob.location.latitude) ek)).sum

/-- The attributes of an edge the weight calculator is not supposed to
touch: its key and its `length`, `grade`, `stairs`, `width`, `surface`,
`lit` fields. -/
def frameProj (e : Edge) :
    (Nat × Nat × Nat) × ℚ × ℚ × String × ℚ × String × String :=
  (edgeKey e, e.data.length, e.data.grade, e.data.stairs, e.data.width,
    e.data.surface, e.data.lit)

/-- The nearest-edge lookup is a function of the graph's geometry only: two
graphs with the same nodes and the same edge keys get the same answer.  This
holds of `ox.distance.nearest_edges`, which reads node coordinates and edge
endpoints but never the `weight` / `obstacle_score` attributes. -/
def GeometryBased (nf : NearestFn) (g : Graph) : Prop :=
  ∀ g', g'.nodes = g.nodes → g'.edges.map edgeKey = g.edges.map edgeKey →
    ∀ lng lat, nf g' lng lat = nf g lng lat

/-! ### Basic lemmas about the obstacle pass -/

theorem addPenalty_zero (e : Edge) : addPenalty 0 e = e := by
  simp [addPenalty]

theorem addPenalty_add (a b : ℚ) (e : Edge) :
    addPenalty a (addPenalty b e) = addPenalty (b + a) e := by
  simp [addPenalty, add_assoc]

theorem edgeKey_addPenalty (q : ℚ) (e : Edge) :
    edgeKey (addPenalty q e) = edgeKey e := rfl

theorem frameProj_addPenalty (q : ℚ) (e : Edge) :
    frameProj (addPenalty q e) = frameProj e := rfl

theorem obstacleWeightTable_pos (t : String) : 0 < obstacleWeightTable t := by
  unfold obstacleWeightTable
  split_ifs <;> norm_num

/-- Effect of one `applyPenaltyStep` on the edge at position `i`. -/
theorem applyPenaltyStep_getElem (ow : ℚ) (g : Graph)
    (p : (Nat × Nat × Nat) × ℚ) (i : ℕ) :
    (applyPenaltyStep ow g p).edges[i]? =
      (g.edges[i]?).map (fun e => addPenalty (penaltyOfPair ow (edgeKey e) p) e) := by
  unfold applyPenaltyStep penaltyOfPair
  by_cases h : p.2 ≤ 100
  · simp only [if_pos h, List.getElem?_map]
    cases g.edges[i]? with
    | none => rfl
    | some e =>
      by_cases hk : edgeKey e = p.1
      · simp [hk, h]
      · have : ¬(p.1 = edgeKey e ∧ p.2 ≤ 100) := by
          intro hc
          exact hk hc.1.symm
        simp [hk, this, addPenalty_zero]
  · have hn : ∀ e : Edge, ¬(p.1 = edgeKey e ∧ p.2 ≤ 100) := by
      intro e hc
      exact h hc.2
    simp [if_neg h, hn, addPenalty_zero]

/-- Effect of the whole inner penalty loop on the edge at position `i`. -/
theorem penaltyFold_getElem (ow : ℚ) (pairs : List ((Nat × Nat × Nat) × ℚ))
    (g : Graph) (i : ℕ) :
    (pairs.foldl (applyPenaltyStep ow) g).edges[i]? =
      (g.edges[i]?).map
        (fun e => addPenalty (obstacleContribution ow pairs (edgeKey e)) e) := by
  induction pairs generalizing g with
  | nil =>
    simp [obstacleContribution, addPenalty_zero]
  | cons p rest ih =>
    rw [List.foldl_cons, ih, applyPenaltyStep_getElem, Option.map_map]
    cases g.edges[i]? with
    | none => rfl
    | some e =>
      simp only [Option.map, Function.comp_def, edgeKey_addPenalty,
        addPenalty_add, obstacleContribution, List.map_cons, List.sum_cons]

/-- A projection invariant under `addPenalty` is invariant under the inner
penalty loop. -/
theorem penaltyFold_map_proj {α : Type} (f : Edge → α)
    (hf : ∀ q e, f (addPenalty q e) = f e) (ow : ℚ)
    (pairs : List ((Nat × Nat × Nat) × ℚ)) (g : Graph) :
    (pairs.foldl (applyPenaltyStep ow) g).edges.map f = g.edges.map f := by
  induction pairs generalizing g with
  | nil => rfl
  | cons p rest ih =>
    rw [List.foldl_cons, ih]
    unfold applyPenaltyStep
    by_cases h : p.2 ≤ 100
    · simp only [if_pos h, List.map_map]
      apply List.map_congr_left
      intro e _
      by_cases hk : edgeKey e = p.1 <;> simp [hk, hf]
    · simp [if_neg h]

theorem penaltyFold_nodes (ow : ℚ) (pairs : List ((Nat × Nat × Nat) × ℚ))
    (g : Graph) :
    (pairs.foldl (applyPenaltyStep ow) g).nodes = g.nodes := by
  induction pairs generalizing g with
  | nil => rfl
  | cons p rest ih =>
    rw [List.foldl_cons, ih]
    unfold applyPenaltyStep
    by_cases h : p.2 ≤ 100 <;> simp [h]

/-- Effect of processing one obstacle on the edge at position `i`, in terms
of the lookup made on the current graph. -/
theorem applyObstacle_getElem (nf : NearestFn) (g : Graph) (ob : Obstacle)
    (i : ℕ) :
    (applyObstacle nf g ob).edges[i]? =
      (g.edges[i]?).map (fun e =>
        addPenalty
          (if ob.location.latitude = 0 ∧ ob.location.longitude = 0 then 0
           else obstacleContribution (obstacleBase ob)
             (nf g ob.location.longitude ob.location.latitude) (edgeKey e)) e) := by
  unfold applyObstacle
  by_cases h : ob.location.latitude = 0 ∧ ob.location.longitude = 0
  · simp [h, addPenalty_zero]
  · simp only [if_neg h, penaltyFold_getElem]

theorem applyObstacle_map_proj {α : Type} (f : Edge → α)
    (hf : ∀ q e, f (addPenalty q e) = f e) (nf : NearestFn) (g : Graph)
    (ob : Obstacle) :
    (applyObstacle nf g ob).edges.map f = g.edges.map f := by
  unfold applyObstacle
  by_cases h : ob.location.latitude = 0 ∧ ob.location.longitude = 0
  · simp [h]
  · simp only [if_neg h, penaltyFold_map_proj f hf]

theorem applyObstacle_nodes (nf : NearestFn) (g : Graph) (ob : Obstacle) :
    (applyObstacle nf g ob).nodes = g.nodes := by
  unfold applyObstacle
  by_cases h : ob.location.latitude = 0 ∧ ob.location.longitude = 0
  · simp [h]
  · simp only [if_neg h, penaltyFold_nodes]

/-- Effect of the whole obstacle loop on the edge at position `i`, for a
geometry-based lookup: the contributions of the successive obstacles add
up, each computed as if on the starting graph. -/
theorem obstacleFold_getElem (nf : NearestFn) (g : Graph)
    (hnf : GeometryBased nf g) (obs : List Obstacle) (g' : Graph)
    (hn : g'.nodes = g.nodes) (hk : g'.edges.map edgeKey = g.edges.map edgeKey)
    (i : ℕ) :
    (obs.foldl (applyObstacle nf) g').edges[i]? =
      (g'.edges[i]?).map
        (fun e => addPenalty (totalContribution nf g obs (edgeKey e)) e) := by
  induction obs generalizing g' with
  | nil =>
    simp [totalContribution, addPenalty_zero]
  | cons ob rest ih =>
    rw [List.foldl_cons,
      ih (applyObstacle nf g' ob)
        (by rw [applyObstacle_nodes, hn])
        (by rw [applyObstacle_map_proj edgeKey edgeKey_addPenalty, hk]),
      applyObstacle_getElem, Option.map_map]
    cases hcase : g'.edges[i]? with
    | none => rfl
    | some e =>
      simp only [Option.map, Function.comp_def, edgeKey_addPenalty,
        addPenalty_add, totalContribution, List.map_cons, List.sum_cons]
      rw [hnf g' hn hk]

/-- Closed form of the preference pass on one edge: the sequence of `+=`
updates equals the sum of the condition-gated penalty terms. -/
theorem applyPreferences_eq (ms mw : ℚ) (as : Bool) (d : EdgeData) :
    applyPreferences ms as mw d =
      { d with
        original_obstacle_score := d.obstacle_score,
        weight :=
          d.length
          + (if as ∧ d.stairs = "yes" then d.length * 100 else 0)
          + (if d.width < mw then d.length * ((mw - d.width) / mw) * 10 else 0)
          + (if |d.grade| > ms then d.length * ((|d.grade| - ms) / ms) * 20 else 0) } := by
  simp only [applyPreferences]
  split_ifs <;> (congr 1) <;> ring

/-- The weight calculator on an empty obstacle list is exactly the
preference pass. -/
theorem calculate_obstacle_weights_nil (nf : NearestFn) (g : Graph)
    (prefs : UserPreferences) :
    (calculate_obstacle_weights nf g [] prefs).edges =
      g.edges.map (fun e =>
        { e with data := applyPreferences (prefs.maxSlope.getD (8 / 100)) (prefs.avoidStairs.getD true) (prefs.minimumWidth.getD (12 / 10)) e.data }) := rfl

theorem obstacleFold_nodes (nf : NearestFn) (obs : List Obstacle)
    (g' : Graph) : (obs.foldl (applyObstacle nf) g').nodes = g'.nodes := by
  induction obs generalizing g' with
  | nil => rfl
  | cons ob rest ih => rw [List.foldl_cons, ih, applyObstacle_nodes]

theorem obstacleFold_map_proj {α : Type} (f : Edge → α)
    (hf : ∀ q e, f (addPenalty q e) = f e) (nf : NearestFn)
    (obs : List Obstacle) (g' : Graph) :
    (obs.foldl (applyObstacle nf) g').edges.map f = g'.edges.map f := by
  induction obs generalizing g' with
  | nil => rfl
  | cons ob rest ih => rw [List.foldl_cons, ih, applyObstacle_map_proj f hf]

theorem frameProj_applyPreferences (ms mw : ℚ) (as : Bool) (e : Edge) :
    frameProj { e with data := applyPreferences ms as mw e.data } =
      frameProj e := rfl

/-- Keys survive the preference pass. -/
theorem calculate_nil_map_edgeKey (nf : NearestFn) (g : Graph)
    (prefs : UserPreferences) :
    (calculate_obstacle_weights nf g [] prefs).edges.map edgeKey =
      g.edges.map edgeKey := by
  rw [calculate_obstacle_weights_nil, List.map_map]
  rfl

/-- The full weight calculator at position `i`: penalties of the obstacle
list are added on top of the preference-pass result. -/
theorem calculate_getElem (nf : NearestFn) (g : Graph) (obs : List Obstacle)
    (prefs : UserPreferences) (hnf : GeometryBased nf g) (i : ℕ) :
    (calculate_obstacle_weights nf g obs prefs).edges[i]? =
      ((calculate_obstacle_weights nf g [] prefs).edges[i]?).map
        (fun e => addPenalty (totalContribution nf g obs (edgeKey e)) e) := by
  have h := obstacleFold_getElem nf g hnf obs
    (calculate_obstacle_weights nf g [] prefs) rfl
    (calculate_nil_map_edgeKey nf g prefs) i
  exact h

/-- C4: before any obstacle-list penalties, each edge's weight equals its
length plus the three condition-gated preference penalties (stairs ×100,
narrow-width ×10, steep-slope ×20), with the stated defaults read for any
absent preference field. -/
theorem preference_weight_closed_form (nf : NearestFn) (g : Graph)
    (prefs : UserPreferences) :
    (calculate_obstacle_weights nf g [] prefs).edges =
      g.edges.map (fun e =>
        { e with data := { e.data with
            original_obstacle_score := e.data.obstacle_score,
            weight :=
              e.data.length
              + (if prefs.avoidStairs.getD true ∧ e.data.stairs = "yes" then
                  e.data.length * 100 else 0)
              + (if e.data.width < prefs.minimumWidth.getD (12 / 10) then
                  e.data.length * ((prefs.minimumWidth.getD (12 / 10) - e.data.width) / prefs.minimumWidth.getD (12 / 10)) * 10 else 0)
              + (if |e.data.grade| > prefs.maxSlope.getD (8 / 100) then
                  e.data.length * ((|e.data.grade| - prefs.maxSlope.getD (8 / 100)) / prefs.maxSlope.getD (8 / 100)) * 20 else 0) } }) := by
  rw [calculate_obstacle_weights_nil]
  simp only [applyPreferences_eq]

/-- C10: the weight calculator never touches the nodes and never touches an
edge's key or its `length`, `grade`, `stairs`, `width`, `surface`, `lit`
attributes; in particular no node or edge is added or removed. -/
theorem weight_calc_frame (nf : NearestFn) (g : Graph) (obs : List Obstacle)
    (prefs : UserPreferences) :
    (calculate_obstacle_weights nf g obs prefs).nodes = g.nodes ∧
    (calculate_obstacle_weights nf g obs prefs).edges.map frameProj =
      g.edges.map frameProj := by
  unfold calculate_obstacle_weights
  constructor
  · rw [obstacleFold_nodes]
  · rw [obstacleFold_map_proj frameProj frameProj_addPenalty, List.map_map]
    rfl

/-- C1: for a geometry-based nearest-edge lookup, the weight calculator adds
to every edge's weight and to its obstacle score, for every obstacle of the
request list not located at `(0, 0)`, the penalty `base * (1 - dist / 100)`
for each `(edge, dist)` pair the lookup reports within the 100 m influence
radius; a STAIRS obstacle with `obstacleScore = 1` reported at 50 m
contributes exactly 500, and a report at 100 m or more contributes 0. -/
theorem obstacle_penalties_additive (nf : NearestFn) (g : Graph)
    (obs : List Obstacle) (prefs : UserPreferences)
    (hnf : GeometryBased nf g) (i : ℕ) (e₀ e₁ : Edge)
    (h₀ : (calculate_obstacle_weights nf g [] prefs).edges[i]? = some e₀)
    (h₁ : (calculate_obstacle_weights nf g obs prefs).edges[i]? = some e₁) :
    e₁.data.weight = e₀.data.weight + totalContribution nf g obs (edgeKey e₀) ∧
    e₁.data.obstacle_score =
      e₀.data.obstacle_score + totalContribution nf g obs (edgeKey e₀) ∧
    (∀ loc ek, obstacleContribution
      (obstacleBase { obstacleType := "STAIRS", obstacleScore := 1, location := loc })
      [(ek, 50)] ek = 500) ∧
    (∀ base ek d, (100 : ℚ) ≤ d → penaltyOfPair base ek (ek, d) = 0) := by
  rw [calculate_getElem nf g obs prefs hnf i, h₀] at h₁
  simp only [Option.map, Option.some.injEq] at h₁
  refine ⟨?_, ?_, ?_, ?_⟩
  · rw [← h₁]
    rfl
  · rw [← h₁]
    rfl
  · intro loc ek
    have ht : obstacleBase
        { obstacleType := "STAIRS", obstacleScore := 1, location := loc } = 1000 := by
      show obstacleWeightTable "STAIRS" * 1 = 1000
      rw [show obstacleWeightTable "STAIRS" = 1000 from rfl]
      norm_num
    simp only [obstacleContribution, List.map_cons, List.map_nil,
      List.sum_cons, List.sum_nil, penaltyOfPair, ht]
    norm_num
  · intro base ek d hd
    unfold penaltyOfPair
    rcases lt_or_eq_of_le hd with h | h
    · have hn : ¬((ek, d).1 = ek ∧ (ek, d).2 ≤ 100) := by
        intro hc
        exact absurd hc.2 (not_le.mpr h)
      rw [if_neg hn]
    · rw [← h]
      norm_num

/-- C2, code behaviour at the claimed inputs: `"2.5 m"` parses to 2.5 and
`"garbage"` falls back to 2.0 as claimed, but `"250cm"` also falls back to
2.0 — the source strips every `m` character before testing for the `cm`
suffix, so the `cm` branch can never fire and `float("250c")` raises. -/
theorem width_parse_code_behavior :
    parse_width "250cm" = 2 ∧ parse_width "2.5 m" = 5 / 2 ∧
    parse_width "garbage" = 2 := by
  refine ⟨?_, ?_, ?_⟩
  · show parse_width_core
      (pyStrip (replaceList ("meters".data) [] (replaceList ("m".data) [] "250cm".data))) = 2
    rw [show pyStrip (replaceList ("meters".data) [] (replaceList ("m".data) [] "250cm".data)) =
      ['2', '5', '0', 'c'] from by decide]
    decide
  · show parse_width_core
      (pyStrip (replaceList ("meters".data) [] (replaceList ("m".data) [] "2.5 m".data))) = 5 / 2
    rw [show pyStrip (replaceList ("meters".data) [] (replaceList ("m".data) [] "2.5 m".data)) =
      ['2', '.', '5'] from by decide]
    have hc : containsSub ("cm".data) ['2', '.', '5'] = false := by decide
    have hp : parseFloat ['2', '.', '5'] =
        some ((1 : ℚ) * (((2 : ℕ) : ℚ) + ((5 : ℕ) : ℚ) / 10 ^ (1 : ℕ))) := rfl
    simp only [parse_width_core, hc, Bool.false_eq_true, if_false, hp]
    norm_num
  · decide

/-- Evaluation of the slope score on a concrete non-negative grade above the
threshold. -/
theorem grade_score_add_eval (q : ℚ) (n : ℤ) (h1 : 0 ≤ q)
    (h2 : 8 / 100 < q) (h3 : ⌊q * 100⌋ = n) :
    grade_score_add q = ((min 100 n : ℤ) : ℚ) := by
  simp only [grade_score_add]
  rw [abs_of_nonneg h1, if_pos h2, h3]

theorem grade_score_add_nonpos (q : ℚ) (h : |q| ≤ 8 / 100) :
    grade_score_add q = 0 := by
  simp only [grade_score_add]
  rw [if_neg (not_lt.mpr h)]

/-- The enrichment score splits into the tag-derived part and the slope
part. -/
theorem enrich_edge_score_split (l g : ℚ) (t : Option Tags) :
    (enrich_edge l g t).obstacle_score =
      (enrich_edge l 0 t).obstacle_score + grade_score_add g := by
  have h0 : grade_score_add 0 = 0 := grade_score_add_nonpos 0 (by norm_num)
  cases t with
  | none => simp [enrich_edge, h0]
  | some tt =>
    obtain ⟨th, ts, tw, tsu, tl⟩ := tt
    simp only [enrich_edge, h0]
    cases tw <;> cases tsu <;> cases tl <;> split_ifs <;>
      simp [apply_ite EdgeData.obstacle_score]

/-- C6: enrichment adds exactly `min(100, floor(|grade| * 100))` to the
edge's obstacle score when `|grade| > 0.08`, and nothing otherwise; in
particular grade 0.12 adds 12, grade 0.95 adds 95, and grade 1.5 adds the
cap 100. -/
theorem grade_penalty_exact (t : Option Tags) (l grade : ℚ) :
    ((8 / 100 : ℚ) < |grade| →
      (enrich_edge l grade t).obstacle_score =
        (enrich_edge l 0 t).obstacle_score + ((min 100 ⌊|grade| * 100⌋ : ℤ) : ℚ)) ∧
    (|grade| ≤ 8 / 100 →
      (enrich_edge l grade t).obstacle_score = (enrich_edge l 0 t).obstacle_score) ∧
    grade_score_add (12 / 100) = 12 ∧
    grade_score_add (95 / 100) = 95 ∧
    grade_score_add (3 / 2) = 100 := by
  refine ⟨?_, ?_, ?_, ?_, ?_⟩
  · intro h
    rw [enrich_edge_score_split]
    simp only [grade_score_add]
    rw [if_pos h]
  · intro h
    rw [enrich_edge_score_split, grade_score_add_nonpos grade h, add_zero]
  · rw [grade_score_add_eval (12 / 100) 12 (by norm_num) (by norm_num)
      (by rw [Int.floor_eq_iff] <;> norm_num)]
    norm_num [min_def]
  · rw [grade_score_add_eval (95 / 100) 95 (by norm_num) (by norm_num)
      (by rw [Int.floor_eq_iff] <;> norm_num)]
    norm_num [min_def]
  · rw [grade_score_add_eval (3 / 2) 150 (by norm_num) (by norm_num)
      (by rw [Int.floor_eq_iff] <;> norm_num)]
    norm_num [min_def]

/-- Witness for `grade_penalty_exact` at tagless input with grade 0.12. -/
theorem grade_penalty_exact_witness :
    (enrich_edge 0 (12 / 100) none).obstacle_score =
      (enrich_edge 0 0 none).obstacle_score +
        ((min 100 ⌊|(12 / 100 : ℚ)| * 100⌋ : ℤ) : ℚ) :=
  (grade_penalty_exact none 0 (12 / 100)).1
    (by rw [show |(12 / 100 : ℚ)| = 12 / 100 from abs_of_nonneg (by norm_num)]; norm_num)

/-- C9: deserializing the node-link serialization of a graph restores the
graph exactly — same nodes, same keyed edges, same attributes. -/
theorem serialize_roundtrip (g : Graph) :
    deserialize_graph (serialize_graph g) = g := by
  cases g with
  | mk nodes edges =>
    simp [serialize_graph, deserialize_graph, node_link_data, node_link_graph,
      List.map_map, Function.comp_def]

/-! ### Concrete fixtures for witnesses and counterexamples -/

def wNF : NearestFn := fun _ _ _ => [((1, 2, 0), 50)]

def wG : Graph := { nodes := [], edges := [⟨1, 2, 0, { length := 10 }⟩] }

def wOb : Obstacle :=
  { obstacleType := "STAIRS", obstacleScore := 1,
    location := { latitude := 5, longitude := 5 } }

def wE0 : Edge := ⟨1, 2, 0, { length := 10, weight := 10 }⟩

def wE1 : Edge := ⟨1, 2, 0, { length := 10, weight := 510, obstacle_score := 500 }⟩

theorem wG_nil_edges : (calculate_obstacle_weights wNF wG [] {}).edges = [wE0] := by
  rw [calculate_obstacle_weights_nil]
  norm_num [wG, wE0, applyPreferences_eq, Edge.mk.injEq, EdgeData.mk.injEq,
    (by decide : ¬"no" = "yes")]

theorem wG_obs_edges :
    (calculate_obstacle_weights wNF wG [wOb] {}).edges = [wE1] := by
  have hb : obstacleBase { obstacleType := "STAIRS", obstacleScore := 1, location := { latitude := 5, longitude := 5 } } = 1000 := by
    show obstacleWeightTable "STAIRS" * 1 = 1000
    rw [show obstacleWeightTable "STAIRS" = 1000 from rfl]
    norm_num
  show ([wOb].foldl (applyObstacle wNF) _).edges = [wE1]
  rw [List.foldl_cons, List.foldl_nil]
  unfold applyObstacle
  norm_num [wOb, hb, wNF, applyPenaltyStep, addPenalty, edgeKey,
    calculate_obstacle_weights_nil, applyPreferences_eq, wG, wE1,
    Edge.mk.injEq, EdgeData.mk.injEq, (by decide : ¬"no" = "yes")]

/-- Witness for `obstacle_penalties_additive`: a single STAIRS obstacle
whose lookup reports the only edge at 50 m. -/
theorem obstacle_penalties_additive_witness :
    wE1.data.weight = wE0.data.weight + totalContribution wNF wG [wOb] (edgeKey wE0) ∧
    wE1.data.obstacle_score = wE0.data.obstacle_score + totalContribution wNF wG [wOb] (edgeKey wE0) := by
  have h := obstacle_penalties_additive wNF wG [wOb] {} (fun _ _ _ _ _ => rfl) 0 wE0 wE1
    (by rw [wG_nil_edges]; rfl) (by rw [wG_obs_edges]; rfl)
  exact ⟨h.1, h.2.1⟩

/-! ### Claim C3: `weight ≥ length` -/

def xPrefs : UserPreferences := { maxSlope := some (-(8 / 100)) }

def xE : Edge := ⟨1, 2, 0, { length := 10, weight := -190 }⟩

/-- C3 counterexample: with the preference `maxSlope = -0.08` (the claim
admits any preferences) the slope penalty of a flat 10 m edge is negative
and the computed weight, −190, drops below the length. -/
theorem weight_lt_length_counterexample :
    (calculate_obstacle_weights (fun _ _ _ => []) wG [] xPrefs).edges = [xE] ∧
    xE.data.weight < xE.data.length := by
  constructor
  · rw [calculate_obstacle_weights_nil]
    norm_num [wG, xE, xPrefs, applyPreferences_eq, Edge.mk.injEq,
      EdgeData.mk.injEq, (by decide : ¬"no" = "yes")]
  · show (-190 : ℚ) < 10
    norm_num

/-- Edges of the graph all relate weight to length as stated. -/
def WeightGeLength (g : Graph) : Prop :=
  ∀ e ∈ g.edges, 0 ≤ e.data.length ∧ e.data.length ≤ e.data.weight

theorem foldl_invariant {β : Type} (P : Graph → Prop) (f : Graph → β → Graph)
    (l : List β) (hstep : ∀ gg b, b ∈ l → P gg → P (f gg b)) :
    ∀ g0, P g0 → P (l.foldl f g0) := by
  induction l with
  | nil => intro g0 h; exact h
  | cons b rest ih =>
    intro g0 h
    exact ih (fun gg b' hb' => hstep gg b' (List.mem_cons_of_mem b hb'))
      (f g0 b) (hstep g0 b (List.mem_cons_self b rest) h)

theorem applyPenaltyStep_invariant (ow : ℚ) (how : 0 ≤ ow)
    (p : (Nat × Nat × Nat) × ℚ) (g : Graph) (h : WeightGeLength g) :
    WeightGeLength (applyPenaltyStep ow g p) := by
  unfold applyPenaltyStep
  by_cases hd : p.2 ≤ 100
  · simp only [if_pos hd, WeightGeLength, List.mem_map]
    rintro e ⟨a, ha, rfl⟩
    obtain ⟨h1, h2⟩ := h a ha
    by_cases hk : edgeKey a = p.1
    · have hpen : 0 ≤ ow * (1 - p.2 / 100) := mul_nonneg how (by linarith)
      rw [if_pos hk]
      refine ⟨h1, ?_⟩
      show a.data.length ≤ a.data.weight + ow * (1 - p.2 / 100)
      linarith
    · rw [if_neg hk]
      exact ⟨h1, h2⟩
  · simpa [if_neg hd] using h

theorem applyObstacle_invariant (nf : NearestFn) (ob : Obstacle)
    (hob : 0 ≤ obstacleBase ob) (g : Graph) (h : WeightGeLength g) :
    WeightGeLength (applyObstacle nf g ob) := by
  unfold applyObstacle
  by_cases hloc : ob.location.latitude = 0 ∧ ob.location.longitude = 0
  · simpa [hloc] using h
  · simp only [if_neg hloc]
    exact foldl_invariant WeightGeLength (applyPenaltyStep (obstacleBase ob)) _
      (fun gg p _ hgg => applyPenaltyStep_invariant _ hob p gg hgg) g h

/-- C3 amended: after the weight calculator runs, `weight ≥ length` holds on
every edge provided the edges have non-negative lengths, the obstacles have
positive scores, and the (defaulted) `maxSlope` and `minimumWidth`
preferences are positive, as the defaults are. -/
theorem weight_ge_length_of_valid_inputs (nf : NearestFn) (g : Graph)
    (obs : List Obstacle) (prefs : UserPreferences)
    (hlen : ∀ e ∈ g.edges, 0 ≤ e.data.length)
    (hscore : ∀ ob ∈ obs, 0 < ob.obstacleScore)
    (hms : 0 < prefs.maxSlope.getD (8 / 100))
    (hmw : 0 < prefs.minimumWidth.getD (12 / 10)) :
    ∀ e ∈ (calculate_obstacle_weights nf g obs prefs).edges,
      e.data.length ≤ e.data.weight := by
  suffices h : WeightGeLength (calculate_obstacle_weights nf g obs prefs) by
    intro e he
    exact (h e he).2
  unfold calculate_obstacle_weights
  apply foldl_invariant WeightGeLength (applyObstacle nf) obs
  · intro gg ob hob hgg
    exact applyObstacle_invariant nf ob
      (le_of_lt (mul_pos (obstacleWeightTable_pos _) (hscore ob hob))) gg hgg
  · intro e he
    rw [List.mem_map] at he
    obtain ⟨a, ha, rfl⟩ := he
    rw [applyPreferences_eq]
    have hl := hlen a ha
    refine ⟨hl, ?_⟩
    dsimp only
    have h1 : 0 ≤ (if prefs.avoidStairs.getD true ∧ a.data.stairs = "yes" then
        a.data.length * 100 else 0) := by
      split_ifs
      · exact mul_nonneg hl (by norm_num)
      · exact le_refl 0
    have h2 : 0 ≤ (if a.data.width < prefs.minimumWidth.getD (12 / 10) then
        a.data.length * ((prefs.minimumWidth.getD (12 / 10) - a.data.width) / prefs.minimumWidth.getD (12 / 10)) * 10 else 0) := by
      split_ifs with hw
      · exact mul_nonneg (mul_nonneg hl (div_nonneg (by linarith) (le_of_lt hmw))) (by norm_num)
      · exact le_refl 0
    have h3 : 0 ≤ (if |a.data.grade| > prefs.maxSlope.getD (8 / 100) then
        a.data.length * ((|a.data.grade| - prefs.maxSlope.getD (8 / 100)) / prefs.maxSlope.getD (8 / 100)) * 20 else 0) := by
      split_ifs with hg
      · exact mul_nonneg (mul_nonneg hl (div_nonneg (by linarith) (le_of_lt hms))) (by norm_num)
      · exact le_refl 0
    linarith

/-- Witness for `weight_ge_length_of_valid_inputs` on the one-edge fixture
with its STAIRS obstacle and default preferences. -/
theorem weight_ge_length_witness : wE1.data.length ≤ wE1.data.weight :=
  weight_ge_length_of_valid_inputs wNF wG [wOb] {}
    (by intro e he
        simp only [wG, List.mem_singleton] at he
        subst he
        norm_num)
    (by intro ob hob
        simp only [List.mem_singleton] at hob
        subst hob
        show (0 : ℚ) < 1
        norm_num)
    (by norm_num)
    (by norm_num)
    wE1 (by rw [wG_obs_edges]; exact List.mem_singleton.mpr rfl)

/-! ### Route planner lemmas -/

/-- Inversion of a successful `find_accessible_route`: the intermediate
values exist and determine the returned record. -/
theorem find_accessible_route_some (nn : Graph → ℚ → ℚ → Nat)
    (sp : Graph → Nat → Nat → Option (List Nat)) (g : Graph)
    (o dst : ℚ × ℚ) (p : List Nat) (r : RouteResult)
    (hsp : sp g (nn g o.2 o.1) (nn g dst.2 dst.1) = some p)
    (hr : find_accessible_route nn sp g o dst = some r) :
    ∃ pts L b s t, p.mapM (nodeLocation g) = some pts ∧
      routeStats g p = some (L, b) ∧
      pts.head? = some s ∧ pts.getLast? = some t ∧
      r = { points := pts, distance := round2 (L / 1000),
            duration := duration_str_of_minutes (route_minutes L),
            hasObstacles := b,
            steps := [{ instructions := "Follow the accessible path.",
                        distance := toString (round_half_even L) ++ " m",
                        duration := duration_str_of_minutes (route_minutes L),
                        startLocation := s, endLocation := t }] } := by
  unfold find_accessible_route at hr
  dsimp only at hr
  rw [hsp] at hr
  simp only [Option.bind_eq_bind, Option.some_bind] at hr
  cases hm : p.mapM (nodeLocation g) with
  | none => rw [hm] at hr; simp at hr
  | some pts =>
    rw [hm] at hr
    simp only [Option.some_bind] at hr
    cases hst : routeStats g p with
    | none => rw [hst] at hr; simp at hr
    | some st =>
      rw [hst] at hr
      simp only [Option.some_bind] at hr
      cases hh : pts.head? with
      | none => rw [hh] at hr; simp at hr
      | some s =>
        rw [hh] at hr
        simp only [Option.some_bind] at hr
        cases hl : pts.getLast? with
        | none => rw [hl] at hr; simp at hr
        | some t =>
          rw [hl] at hr
          simp only [Option.some_bind, Option.pure_def, Option.some.injEq] at hr
          exact ⟨pts, st.1, st.2, s, t, rfl, rfl, hh, hl, hr.symm⟩

/-- The obstacle flag computed by the stats fold is set exactly when the
accumulator already holds or some listed pair's key-0 edge record has a
positive score. -/
theorem statsFold_flag_iff (g : Graph) (l : List (Nat × Nat)) :
    ∀ (acc : ℚ × Bool) (L : ℚ) (b : Bool),
      (l.foldlM (fun acc uv => do
          let d ← get_edge_data g uv.1 uv.2 0
          pure (acc.1 + d.length,
            if d.obstacle_score > 0 ∨ d.original_obstacle_score > 0 then true
            else acc.2)) acc) = some (L, b) →
      (b = true ↔ acc.2 = true ∨ ∃ uv ∈ l, ∃ d,
        get_edge_data g uv.1 uv.2 0 = some d ∧
        (0 < d.obstacle_score ∨ 0 < d.original_obstacle_score)) := by
  induction l with
  | nil =>
    intro acc L b h
    simp only [List.foldlM_nil, Option.pure_def, Option.some.injEq] at h
    subst h
    simp
  | cons uv rest ih =>
    intro acc L b h
    rw [List.foldlM_cons] at h
    cases hd : get_edge_data g uv.1 uv.2 0 with
    | none => rw [hd] at h; simp at h
    | some d =>
      rw [hd] at h
      simp only [Option.bind_eq_bind, Option.some_bind, Option.pure_def] at h
      have hih := ih _ L b h
      rw [hih]
      by_cases hc : d.obstacle_score > 0 ∨ d.original_obstacle_score > 0
      · simp only [if_pos hc]
        simp [hd]
        tauto
      · simp only [if_neg hc]
        simp [hd]
        constructor
        · intro hor
          rcases hor with hacc | hrest
          · exact Or.inl hacc
          · exact Or.inr (Or.inr hrest)
        · intro hor
          rcases hor with hacc | huv | hrest
          · exact Or.inl hacc
          · exact absurd huv hc
          · exact Or.inr hrest

/-- C5 amended: the returned `hasObstacles` flag is true iff some
*consecutive node pair* of the planned path has its `key 0` edge record
carrying a positive `obstacle_score` or `original_obstacle_score` (the
source reads `graph.get_edge_data(u, v, 0)`, not the parallel edge the
search actually traversed, and tests `> 0`, not nonzero). -/
theorem hasObstacles_iff_key0 (nn : Graph → ℚ → ℚ → Nat)
    (sp : Graph → Nat → Nat → Option (List Nat)) (g : Graph)
    (o dst : ℚ × ℚ) (p : List Nat) (r : RouteResult)
    (hsp : sp g (nn g o.2 o.1) (nn g dst.2 dst.1) = some p)
    (hr : find_accessible_route nn sp g o dst = some r) :
    r.hasObstacles = true ↔ ∃ uv ∈ p.zip p.tail, ∃ d,
      get_edge_data g uv.1 uv.2 0 = some d ∧
      (0 < d.obstacle_score ∨ 0 < d.original_obstacle_score) := by
  obtain ⟨pts, L, b, s, t, hm, hst, hh, hl, rfl⟩ :=
    find_accessible_route_some nn sp g o dst p r hsp hr
  have hflag := statsFold_flag_iff g (p.zip p.tail) ((0 : ℚ), false) L b hst
  simpa using hflag

/-- C7: the reported duration of a planned route of accumulated length `L`
meters is `ceil((L / 1.4) / 60)` minutes, rendered as `"<m> mins"` below 60
minutes and `"<h> hours <m> mins"` from 60 minutes on; at the boundary, 59
minutes renders as `"59 mins"` and 60 as `"1 hours 0 mins"`. -/
theorem duration_formula (nn : Graph → ℚ → ℚ → Nat)
    (sp : Graph → Nat → Nat → Option (List Nat)) (g : Graph)
    (o dst : ℚ × ℚ) (p : List Nat) (r : RouteResult) (L : ℚ) (b : Bool)
    (hsp : sp g (nn g o.2 o.1) (nn g dst.2 dst.1) = some p)
    (hst : routeStats g p = some (L, b))
    (hr : find_accessible_route nn sp g o dst = some r) :
    r.duration = duration_str_of_minutes ⌈(L / (14 / 10)) / 60⌉ ∧
    (∀ m : ℤ, m < 60 → duration_str_of_minutes m = toString m ++ " mins") ∧
    (∀ m : ℤ, ¬m < 60 → duration_str_of_minutes m =
      toString (Int.fdiv m 60) ++ " hours " ++ toString (Int.emod m 60) ++ " mins") ∧
    duration_str_of_minutes 59 = "59 mins" ∧
    duration_str_of_minutes 60 = "1 hours 0 mins" := by
  obtain ⟨pts, L', b', s, t, hm, hst', hh, hl, rfl⟩ :=
    find_accessible_route_some nn sp g o dst p r hsp hr
  rw [hst'] at hst
  simp only [Option.some.injEq, Prod.mk.injEq] at hst
  refine ⟨?_, ?_, ?_, by decide, by decide⟩
  · rw [hst.1]
    rfl
  · intro m hm'
    rw [duration_str_of_minutes, if_pos hm']
  · intro m hm'
    rw [duration_str_of_minutes, if_neg hm']

/-- C8: when the spatial lookup's nodes admit no path at all in the graph —
so the shortest-path search, which only ever returns actual paths, must
fail — the route planner returns no result (the caught `NetworkXNoPath`
exception of the source), emitting no partial route. -/
theorem no_path_yields_none (nn : Graph → ℚ → ℚ → Nat)
    (sp : Graph → Nat → Nat → Option (List Nat)) (g : Graph) (o dst : ℚ × ℚ)
    (hsound : ∀ p, sp g (nn g o.2 o.1) (nn g dst.2 dst.1) = some p →
      IsPathFromTo g (nn g o.2 o.1) (nn g dst.2 dst.1) p)
    (hnopath : ∀ p, ¬IsPathFromTo g (nn g o.2 o.1) (nn g dst.2 dst.1) p) :
    find_accessible_route nn sp g o dst = none := by
  cases hsp : sp g (nn g o.2 o.1) (nn g dst.2 dst.1) with
  | none =>
    unfold find_accessible_route
    dsimp only
    rw [hsp]
    rfl
  | some p => exact absurd (hsound p hsp) (hnopath p)

/-- Forward evaluation of `find_accessible_route` from its intermediate
values. -/
theorem find_accessible_route_build (nn : Graph → ℚ → ℚ → Nat)
    (sp : Graph → Nat → Nat → Option (List Nat)) (g : Graph)
    (o dst : ℚ × ℚ) (p : List Nat) (pts : List Location) (L : ℚ) (b : Bool)
    (s t : Location)
    (hsp : sp g (nn g o.2 o.1) (nn g dst.2 dst.1) = some p)
    (hm : p.mapM (nodeLocation g) = some pts)
    (hst : routeStats g p = some (L, b))
    (hh : pts.head? = some s) (hl : pts.getLast? = some t) :
    find_accessible_route nn sp g o dst =
      some { points := pts, distance := round2 (L / 1000),
             duration := duration_str_of_minutes (route_minutes L),
             hasObstacles := b,
             steps := [{ instructions := "Follow the accessible path.",
                         distance := toString (round_half_even L) ++ " m",
                         duration := duration_str_of_minutes (route_minutes L),
                         startLocation := s, endLocation := t }] } := by
  unfold find_accessible_route
  dsimp only
  rw [hsp]
  simp only [Option.bind_eq_bind, Option.some_bind, hm, hst, hh, hl]
  rfl

/-! ### Route fixtures -/

def rNN : Graph → ℚ → ℚ → Nat := fun _ x _ => if x == 0 then 1 else 2

def rSP : Graph → Nat → Nat → Option (List Nat) :=
  fun _ u v => if u == 1 && v == 2 then some [1, 2] else none

def rG : Graph :=
  { nodes := [(1, { x := 0, y := 0 }), (2, { x := 1, y := 0 })],
    edges := [⟨1, 2, 0, { length := 1400, weight := 1400 }⟩] }

def rRes : RouteResult :=
  { points := [{ latitude := 0, longitude := 0 }, { latitude := 0, longitude := 1 }],
    distance := round2 ((1400 : ℚ) / 1000),
    duration := duration_str_of_minutes (route_minutes 1400),
    hasObstacles := false,
    steps := [{ instructions := "Follow the accessible path.",
                distance := toString (round_half_even 1400) ++ " m",
                duration := duration_str_of_minutes (route_minutes 1400),
                startLocation := { latitude := 0, longitude := 0 },
                endLocation := { latitude := 0, longitude := 1 } }] }

theorem rG_stats : routeStats rG [1, 2] = some (1400, false) := by
  rw [show routeStats rG [1, 2] = some ((0 : ℚ) + 1400, false) from rfl]
  norm_num

theorem rG_route :
    find_accessible_route rNN rSP rG (0, 0) (0, 1) = some rRes :=
  find_accessible_route_build rNN rSP rG (0, 0) (0, 1) [1, 2]
    [{ latitude := 0, longitude := 0 }, { latitude := 0, longitude := 1 }]
    1400 false { latitude := 0, longitude := 0 } { latitude := 0, longitude := 1 }
    rfl rfl rG_stats rfl rfl

/-- Witness for `duration_formula` on a 1400 m route: the duration field is
the rendering of `ceil((1400 / 1.4) / 60)` minutes. -/
theorem duration_formula_witness :
    rRes.duration = duration_str_of_minutes ⌈((1400 : ℚ) / (14 / 10)) / 60⌉ :=
  (duration_formula rNN rSP rG (0, 0) (0, 1) [1, 2] rRes 1400 false
    rfl rG_stats rG_route).1

/-- Witness for `hasObstacles_iff_key0` on the same route. -/
theorem hasObstacles_iff_key0_witness :
    rRes.hasObstacles = true ↔ ∃ uv ∈ [1, 2].zip ([1, 2] : List Nat).tail, ∃ d,
      get_edge_data rG uv.1 uv.2 0 = some d ∧
      (0 < d.obstacle_score ∨ 0 < d.original_obstacle_score) :=
  hasObstacles_iff_key0 rNN rSP rG (0, 0) (0, 1) [1, 2] rRes rfl rG_route

/-! ### Disconnected fixture for C8 -/

def dG : Graph :=
  { nodes := [(1, { x := 0, y := 0 }), (2, { x := 1, y := 0 })], edges := [] }

def dSP : Graph → Nat → Nat → Option (List Nat) := fun _ _ _ => none

theorem dG_no_path (p : List Nat) : ¬IsPathFromTo dG 1 2 p := by
  rintro ⟨hh, hl, hc⟩
  match p with
  | [] => simp at hh
  | [a] =>
    simp at hh hl
    subst hh
    exact absurd hl (by norm_num)
  | a :: b :: rest =>
    have hpw : pairWeight dG a b = none := by simp [pairWeight, dG]
    simp [walkCost, hpw] at hc

/-- Witness for `no_path_yields_none`: two isolated nodes. -/
theorem no_path_yields_none_witness :
    find_accessible_route rNN dSP dG (0, 0) (0, 1) = none :=
  no_path_yields_none rNN dSP dG (0, 0) (0, 1)
    (fun p h => absurd h (by simp [dSP]))
    (fun p => dG_no_path p)

/-! ### Parallel-edge fixture for the C5 counterexample -/

def cE50 : EdgeData := { length := 1, weight := 1 }

def cE51 : EdgeData := { length := 1, weight := 1 / 2, obstacle_score := 5 }

def cG5 : Graph :=
  { nodes := [(1, { x := 0, y := 0 }), (2, { x := 1, y := 0 })],
    edges := [⟨1, 2, 0, cE50⟩, ⟨1, 2, 1, cE51⟩] }

def cSP5 : Graph → Nat → Nat → Option (List Nat) :=
  fun _ u v => if u == 1 && v == 2 then some [1, 2] else none

theorem cG5_path_unique (q : List Nat) (hq : IsPathFromTo cG5 1 2 q) :
    q = [1, 2] := by
  obtain ⟨hh, hl, hc⟩ := hq
  match q with
  | [] => simp at hh
  | [a] =>
    simp at hh hl
    subst hh
    exact absurd hl (by norm_num)
  | a :: b :: rest =>
    have ha : a = 1 := by simpa using hh
    subst ha
    by_cases hb : b = 2
    · subst hb
      match rest with
      | [] => rfl
      | c :: rest2 =>
        have hpw : pairWeight cG5 2 c = none := by simp [pairWeight, cG5]
        simp [walkCost, hpw] at hc
    · have h2b : (2 == b) = false := beq_eq_false_iff_ne.mpr (fun h => hb h.symm)
      have hpw : pairWeight cG5 1 b = none := by
        simp [pairWeight, cG5, h2b]
      simp [walkCost, hpw] at hc

theorem cG5_shortest : IsShortestPath cG5 1 2 [1, 2] := by
  constructor
  · exact ⟨rfl, rfl, rfl⟩
  · intro q c c' hq hcp hcq
    rw [cG5_path_unique q hq, hcp] at hcq
    injection hcq with h
    exact le_of_eq h

theorem cG5_stats : routeStats cG5 [1, 2] = some (1, false) := by
  rw [show routeStats cG5 [1, 2] = some ((0 : ℚ) + 1, false) from rfl]
  norm_num

/-- C5 counterexample: on a graph with two parallel edges from node 1 to
node 2 — key 0 with weight 1 and score 0, key 1 with weight 1/2 and score
5 — the shortest path [1, 2] is returned (it is the unique path, and its
search follows the cheaper key-1 edge, which carries a nonzero score), yet
`hasObstacles` is `false` because the stats loop reads only the key-0
record. -/
theorem hasObstacles_counterexample :
    cSP5 cG5 1 2 = some [1, 2] ∧
    IsShortestPath cG5 1 2 [1, 2] ∧
    (find_accessible_route rNN cSP5 cG5 (0, 0) (0, 1)).map
      RouteResult.hasObstacles = some false ∧
    TraversedObstacle cG5 [1, 2] := by
  refine ⟨rfl, cG5_shortest, ?_, ?_⟩
  · rw [find_accessible_route_build rNN cSP5 cG5 (0, 0) (0, 1) [1, 2]
      [{ latitude := 0, longitude := 0 }, { latitude := 0, longitude := 1 }]
      1 false { latitude := 0, longitude := 0 } { latitude := 0, longitude := 1 }
      rfl rfl cG5_stats rfl rfl]
    rfl
  · refine ⟨⟨1, 2, 1, cE51⟩, by simp [cG5], (1, 2), by simp, rfl, rfl, ?_, Or.inl ?_⟩
    · rw [show pairWeight cG5 1 2 = some (min 1 (1 / 2)) from rfl,
        show (⟨1, 2, 1, cE51⟩ : Edge).data.weight = 1 / 2 from rfl]
      norm_num [min_def]
    · show (5 : ℚ) ≠ 0
      norm_num

end AccessMate
